import Mathlib

/-!
# Verification of the n8n IMAP node (`nodes/Imap/Imap.node.ts`)

A shallow embedding of the `Imap.execute` entry point and the
`testImapCredentials` credential-test hook of `Imap.node.ts`, together with
proofs about connection lifecycle, credential resolution, per-item dispatch
and error wrapping.

The embedding models the JavaScript world explicitly:

* `Json` is a model of JavaScript values as they occur in n8n item data
  (`undefined` included, since property access on a missing key yields it);
  `truthy` is JavaScript truthiness and `jsOr` is the `||` operator.
* `JsError` models the two kinds of thrown values the code distinguishes:
  `NodeApiError` (the n8n host error, carrying a message and an optional
  description) and any other error (carrying possibly-absent `responseText`
  and `message` string properties).
* All interaction with the outside world (node parameters, input items,
  the credential stores, the outcome of `client.connect()`, the behaviour
  of the per-item operation handlers, and the strings captured by the
  `ImapFlowErrorCatcher` logger shim) is supplied by an `Env`.
* `execute` returns the list of observable `Event`s in order (client
  creation, connect, logout, handler invocations, log lines) together with
  the JavaScript outcome: a thrown `JsError` or the returned branch list.
-/

/-- JavaScript/JSON values flowing through n8n items. `undefined` is included
because reading an absent object property yields it. Numbers are modelled as
integers (no claim depends on fractional values). -/
inductive Json where
  | undefined : Json
  | null : Json
  | bool (b : Bool) : Json
  | num (n : Int) : Json
  | str (s : String) : Json
  | arr (elems : List Json) : Json
  | obj (fields : List (String × Json)) : Json

/-- JavaScript truthiness of a value. -/
def truthy : Json → Bool
  | Json.undefined => false
  | Json.null => false
  | Json.bool b => b
  | Json.num n => n != 0
  | Json.str s => s != ""
  | Json.arr _ => true
  | Json.obj _ => true

/-- Property access `v[key]`: first matching field of an object, `undefined`
otherwise (the code only dereferences values it has checked to be truthy, so
the `null`/`undefined` TypeError case is unreachable). -/
def getField : Json → String → Json
  | Json.obj fields, key =>
      match fields.find? (fun f => f.fst == key) with
      | some f => f.snd
      | none => Json.undefined
  | _, _ => Json.undefined

/-- The JavaScript `||` operator on values. -/
def jsOr (a b : Json) : Json := if truthy a then a else b

/-- The strict comparison `v !== false`. -/
def strictNeqFalse : Json → Bool
  | Json.bool false => false
  | _ => true

/-- The strict comparison `v === true`. -/
def strictEqTrue : Json → Bool
  | Json.bool b => b
  | _ => false

/-- The JavaScript `||` chain on possibly-absent string properties:
an absent or empty string falls through to the right operand. -/
def jsOrS (a b : Option String) : Option String :=
  match a with
  | some s => if s = "" then b else some s
  | none => b

/-- Thrown JavaScript values as the code distinguishes them:
`nodeApi` is n8n's `NodeApiError` built from `{message, description?}`;
`generic` is any other error with possibly-absent `responseText` and
`message` string properties. -/
inductive JsError where
  | nodeApi (message : String) (description : Option String) : JsError
  | generic (responseText : Option String) (message : Option String) : JsError
deriving DecidableEq, Repr

/-- The `message` property of a thrown value. -/
def jsMessage : JsError → Option String
  | JsError.nodeApi m _ => some m
  | JsError.generic _ m => m

/-- The `responseText` property of a thrown value (absent on `NodeApiError`). -/
def jsResponseText : JsError → Option String
  | JsError.nodeApi _ _ => none
  | JsError.generic rt _ => rt

/-- String interpolation of `error.message` (an absent property prints as
`undefined`). -/
def messageOrUndefined (e : JsError) : String :=
  match jsMessage e with
  | some s => s
  | none => "undefined"

/-- The credentials record (`ImapCredentialsData`): host, port, user,
password and the two TLS flags. The first four keep the JavaScript value
extracted for them (the `as string` / `as number` casts in the source do not
convert at runtime); the TLS flags are genuine booleans, computed by strict
comparisons in the `fromInput` path. -/
structure ImapCredentialsData where
  host : Json
  port : Json
  user : Json
  password : Json
  tls : Bool
  allowUnauthorizedCerts : Bool

/-- Result of one `executeImapAction` call: either a thrown error or a
returned value, which is itself either a (possibly empty) item list or a
falsy value (`none`). -/
inductive HandlerResult where
  | ok (result : Option (List Json)) : HandlerResult
  | err (e : JsError) : HandlerResult

/-- An operation handler registered under a resource: its `operation.value`
discriminator and the behaviour of `executeImapAction` for each item index
(the behaviour is environment-supplied, since it talks to the IMAP server). -/
structure OperationDef where
  operationValue : String
  run : Nat → HandlerResult

/-- A resource definition from `allResourceDefinitions`: its
`resource.value` discriminator and its operation definitions. -/
structure ResourceDef where
  resourceValue : String
  operationDefs : List OperationDef

/-- Observable events of an execution, in program order. -/
inductive Event where
  | createClient (creds : ImapCredentialsData) : Event
  | connect : Event
  | logout : Event
  | startErrorCatching : Event
  | handlerCall (itemIndex : Nat) : Event
  | logWarn (msg : String) : Event
  | logError (msg : String) : Event
  | logErrorObj (e : JsError) : Event
  | logInfo (msg : String) : Event

/-- The authentication option handled inline by `execute`
(`const CREDENTIALS_TYPE_FROM_INPUT = 'fromInput'`). -/
def CREDENTIALS_TYPE_FROM_INPUT : String := "fromInput"

/-- Modelled from the spec: the token for the host (core IMAP trigger node)
credential store. Its concrete value lives in
`nodes/Imap/utils/CredentialsSelector.ts`, which is not under `src/`; the
only property used is that it differs from `fromInput`. -/
def CREDENTIALS_TYPE_CORE_IMAP_ACCOUNT : String := "coreImapAccount"

/-- Modelled from the spec: the token for the node-local credential store,
also declared in `nodes/Imap/utils/CredentialsSelector.ts` (not under
`src/`). -/
def CREDENTIALS_TYPE_THIS_NODE : String := "thisNodeImapAccount"

/-- The environment of one `execute` call: node parameters (as the host's
`getNodeParameter(name, itemIndex)`), the input items (each element is the
`json` record of one `INodeExecutionData`), the two credential stores, the
outcome of `client.connect()`, the registered resource definitions, and the
strings the `ImapFlowErrorCatcher` shim would return from
`stopAndGetErrors()` while processing a given item. -/
structure Env where
  getNodeParameter : String → Nat → String
  items : List Json
  hostStoreCredentials : ImapCredentialsData
  nodeStoreCredentials : ImapCredentialsData
  connectResult : Option JsError
  resourceDefs : List ResourceDef
  captured : Nat → List String

/-- `this.getNodeParameter('authentication', 0)`. -/
def authOf (env : Env) : String := env.getNodeParameter "authentication" 0

/-- `this.getNodeParameter('credentialsField', 0)`. -/
def credentialsFieldOf (env : Env) : String :=
  env.getNodeParameter "credentialsField" 0

/-- `this.getNodeParameter('resource', 0)`. -/
def resourceOf (env : Env) : String := env.getNodeParameter "resource" 0

/-- `this.getNodeParameter('operation', 0)`. -/
def operationOf (env : Env) : String := env.getNodeParameter "operation" 0

/-- Modelled from the spec: `getImapCredentials` lives in
`nodes/Imap/utils/CredentialsSelector.ts`, which is not under `src/`. Per the
spec ("credential resolution from one of three sources (host credential
store, node-local credential store, upstream workflow item field)") it
fetches the typed credentials record from the host credential store when the
authentication parameter selects the core IMAP account, and from the
node-local credential store otherwise. -/
def getImapCredentials (env : Env) : ImapCredentialsData :=
  if authOf env = CREDENTIALS_TYPE_CORE_IMAP_ACCOUNT then env.hostStoreCredentials
  else env.nodeStoreCredentials

/-- The credentials record built from the upstream item
(`Imap.node.ts` lines 176–183): exactly the six fields, with
`port = inputCredentials.port || 993`, `tls = inputCredentials.tls !== false`
and `allowUnauthorizedCerts = inputCredentials.allowUnauthorizedCerts === true`. -/
def extractInputCredentials (ic : Json) : ImapCredentialsData :=
  { host := getField ic "host"
    port := jsOr (getField ic "port") (Json.num 993)
    user := getField ic "user"
    password := getField ic "password"
    tls := strictNeqFalse (getField ic "tls")
    allowUnauthorizedCerts := strictEqTrue (getField ic "allowUnauthorizedCerts") }

/-- Credential resolution (`Imap.node.ts` lines 140–187): in `fromInput`
mode the record is validated and extracted from the named field of the first
input item, throwing `NodeApiError` on an empty item list, a falsy field
value, or a falsy `host`/`user`/`password`; otherwise `getImapCredentials`
supplies it. -/
def resolveCredentials (env : Env) : Except JsError ImapCredentialsData :=
  if authOf env = CREDENTIALS_TYPE_FROM_INPUT then
    match env.items with
    | [] => Except.error (JsError.nodeApi "No input items provided" none)
    | firstItem :: _ =>
        let field := credentialsFieldOf env
        let ic := getField firstItem field
        if ¬ truthy ic then
          Except.error (JsError.nodeApi
            ("No credentials found in field \"" ++ field ++ "\"") none)
        else if ¬ truthy (getField ic "host") ∨ ¬ truthy (getField ic "user")
            ∨ ¬ truthy (getField ic "password") then
          Except.error (JsError.nodeApi
            "Credentials must contain at least host, user, and password fields" none)
        else
          Except.ok (extractInputCredentials ic)
  else
    Except.ok (getImapCredentials env)

/-- Handler lookup (`Imap.node.ts` line 215): first resource definition whose
`resource.value` matches, then — through optional chaining — the first of its
operation definitions whose `operation.value` matches. -/
def findHandler (defs : List ResourceDef) (resource operation : String) :
    Option OperationDef :=
  (defs.find? (fun rd => rd.resourceValue == resource)).bind
    (fun rd => rd.operationDefs.find? (fun od => od.operationValue == operation))

/-- `Operation "<operation>" for resource "<resource>" returned no data`. -/
def noDataMessage (resource operation : String) : String :=
  "Operation \"" ++ operation ++ "\" for resource \"" ++ resource
    ++ "\" returned no data"

/-- `Operation "<operation>" for resource "<resource>" failed: <msg>`. -/
def operationFailedMessage (resource operation errorMessage : String) : String :=
  "Operation \"" ++ operation ++ "\" for resource \"" ++ resource
    ++ "\" failed: " ++ errorMessage

/-- `Unknown operation "<operation>" for resource "<resource>"`. -/
def unknownOperationMessage (resource operation : String) : String :=
  "Unknown operation \"" ++ operation ++ "\" for resource \"" ++ resource ++ "\""

/-- The catch block of the per-item loop (`Imap.node.ts` lines 231–262),
error value only: a `NodeApiError` is rethrown unchanged; any other error is
wrapped into a `NodeApiError` whose message is
`error.responseText || error.message`, falling back to the joined captured
lines and then to `"Unknown error"`, with a description composed from the
captured lines when their joined form is nonempty. -/
def wrapHandlerError (e : JsError) (caught : List String) : JsError :=
  let joined := String.intercalate ", \n" caught
  match e with
  | JsError.nodeApi m d => JsError.nodeApi m d
  | JsError.generic rt m =>
      let errorMessage :=
        match jsOrS rt (jsOrS m none) with
        | some s => s
        | none => if joined = "" then "Unknown error" else joined
      let descr :=
        if joined = "" then none
        else some ("The following errors were reported by the IMAP server: \n"
          ++ joined)
      JsError.nodeApi errorMessage descr

/-- The log events emitted by the catch block of the per-item loop, in order
(`Imap.node.ts` lines 232–255). -/
def handlerCatchEvents (resource operation : String) (e : JsError)
    (caught : List String) : List Event :=
  let joined := String.intercalate ", \n" caught
  (if caught.length > 0 then
      [Event.logError ("IMAP server reported errors: " ++ joined)]
    else []) ++
  match e with
  | JsError.nodeApi _ _ => []
  | JsError.generic rt m =>
      let errorMessage :=
        match jsOrS rt (jsOrS m none) with
        | some s => s
        | none => if joined = "" then "Unknown error" else joined
      [Event.logError (operationFailedMessage resource operation errorMessage),
       Event.logErrorObj (JsError.generic rt m)]

/-- The per-item loop (`Imap.node.ts` lines 220–264) over the remaining item
indices: each iteration starts error catching and invokes the handler; a
truthy result is appended, a falsy result logs a warning, and a thrown error
stops the loop with the wrapped error. -/
def loopItems (run : Nat → HandlerResult) (captured : Nat → List String)
    (resource operation : String) :
    List Nat → List Event × Except JsError (List Json)
  | [] => ([], Except.ok [])
  | i :: rest =>
      match run i with
      | HandlerResult.ok (some its) =>
          let r := loopItems run captured resource operation rest
          (Event.startErrorCatching :: Event.handlerCall i :: r.fst,
           match r.snd with
           | Except.ok tail => Except.ok (its ++ tail)
           | Except.error e => Except.error e)
      | HandlerResult.ok none =>
          let r := loopItems run captured resource operation rest
          (Event.startErrorCatching :: Event.handlerCall i ::
             Event.logWarn (noDataMessage resource operation) :: r.fst,
           r.snd)
      | HandlerResult.err e =>
          (Event.startErrorCatching :: Event.handlerCall i ::
             handlerCatchEvents resource operation e (captured i),
           Except.error (wrapHandlerError e (captured i)))

/-- The message of the `NodeApiError` thrown when `client.connect()` fails
(`Imap.node.ts` lines 196–201): `error.responseText || error.message ||
'Unknown error'`. -/
def connectFailMessage (e : JsError) : String :=
  match jsOrS (jsResponseText e) (jsOrS (jsMessage e) none) with
  | some s => s
  | none => "Unknown error"

/-- The `Imap.execute` entry point (`Imap.node.ts` lines 137–285): resolve
credentials, create the client, connect (wrapping a connect failure), then
inside the connection-closing try/catch dispatch on resource/operation and
loop over the input items; the single result branch is returned on success,
and `client.logout()` runs on both exits of that try/catch. -/
def execute (env : Env) : List Event × Except JsError (List (List Json)) :=
  match resolveCredentials env with
  | Except.error e => ([], Except.error e)
  | Except.ok credentials =>
      match env.connectResult with
      | some e =>
          ([Event.createClient credentials, Event.connect,
            Event.logError ("Connection failed: " ++ messageOrUndefined e)],
           Except.error (JsError.nodeApi (connectFailMessage e) none))
      | none =>
          let resource := resourceOf env
          let operation := operationOf env
          match findHandler env.resourceDefs resource operation with
          | some handler =>
              let r := loopItems handler.run env.captured resource operation
                (List.range env.items.length)
              match r.snd with
              | Except.ok its =>
                  ([Event.createClient credentials, Event.connect] ++ r.fst ++
                     [Event.logout, Event.logInfo "IMAP connection closed"],
                   Except.ok [its])
              | Except.error e =>
                  ([Event.createClient credentials, Event.connect] ++ r.fst ++
                     [Event.logout,
                      Event.logError ("IMAP connection closed. Error: "
                        ++ messageOrUndefined e)],
                   Except.error e)
          | none =>
              let msg := unknownOperationMessage resource operation
              ([Event.createClient credentials, Event.connect,
                Event.logError msg, Event.logout,
                Event.logError ("IMAP connection closed. Error: " ++ msg)],
               Except.error (JsError.nodeApi msg none))

/-- Result record of the credential test hook (`INodeCredentialTestResult`).
`message` keeps the possibly-absent `error.message`. -/
structure CredTestResult where
  status : String
  message : Option String
deriving DecidableEq, Repr

/-- Environment of one `testImapCredentials` call: whether
`createImapClient` throws, whether `client.connect()` rejects, and whether
the (fire-and-forget) `client.logout()` promise would succeed. -/
structure CredTestEnv where
  createResult : Option JsError
  connectResult : Option JsError
  logoutSucceeds : Bool
deriving DecidableEq, Repr

/-- The credential test hook (`Imap.node.ts` lines 292–310): any error
thrown while creating the client or awaiting `connect()` yields
`{status: 'Error', message: error.message}`; otherwise `{status: 'OK',
message: 'Success'}`. `client.logout()` is called without `await`, so its
rejection is never observed by the surrounding try/catch. -/
def testImapCredentials (env : CredTestEnv) : CredTestResult :=
  match env.createResult with
  | some e => { status := "Error", message := jsMessage e }
  | none =>
      match env.connectResult with
      | some e => { status := "Error", message := jsMessage e }
      | none => { status := "OK", message := some "Success" }

/-! ## Trace observers -/

/-- Whether an event is the `client.connect()` call. -/
def isConnect : Event → Bool
  | Event.connect => true
  | _ => false

/-- Whether an event is a `client.logout()` call. -/
def isLogout : Event → Bool
  | Event.logout => true
  | _ => false

/-- Whether an event is the `createImapClient` call. -/
def isCreateClient : Event → Bool
  | Event.createClient _ => true
  | _ => false

/-- The item indices of the handler invocations in a trace, in order. -/
def handlerCalls (t : List Event) : List Nat :=
  t.filterMap (fun e => match e with
    | Event.handlerCall i => some i
    | _ => none)

/-- Number of `client.connect()` calls in a trace. -/
def connectCount (t : List Event) : Nat := (t.filter isConnect).length

/-- Number of `client.logout()` calls in a trace. -/
def logoutCount (t : List Event) : Nat := (t.filter isLogout).length

/-- Whether credential resolution succeeds (i.e. `execute` reaches
`client.connect()`). -/
def credentialsResolved (env : Env) : Bool :=
  match resolveCredentials env with
  | Except.ok _ => true
  | Except.error _ => false

/-- The items a handler call contributes to the result list: the returned
list when the result is truthy, nothing otherwise. -/
def okItems : HandlerResult → List Json
  | HandlerResult.ok (some its) => its
  | _ => []

/-- Whether a handler call returns (rather than throws). -/
def isOkResult : HandlerResult → Bool
  | HandlerResult.ok _ => true
  | HandlerResult.err _ => false

/-- Concatenation, in index order, of the items contributed by the handler
calls at the given indices. -/
def collectOk (run : Nat → HandlerResult) : List Nat → List Json
  | [] => []
  | i :: rest => okItems (run i) ++ collectOk run rest

/-! ## Lemmas about the per-item loop -/

theorem loopItems_no_lifecycle (run : Nat → HandlerResult)
    (captured : Nat → List String) (resource operation : String)
    (idxs : List Nat) :
    (loopItems run captured resource operation idxs).fst.filter isConnect = []
    ∧ (loopItems run captured resource operation idxs).fst.filter isLogout = []
    ∧ (loopItems run captured resource operation idxs).fst.filter isCreateClient
        = [] := by
  induction idxs with
  | nil => simp [loopItems]
  | cons i rest ih =>
    rcases ih with ⟨ih1, ih2, ih3⟩
    cases h : run i with
    | ok result =>
      cases result with
      | some its =>
        simp [loopItems, h, List.filter, isConnect, isLogout, isCreateClient,
          ih1, ih2, ih3]
      | none =>
        simp [loopItems, h, List.filter, isConnect, isLogout, isCreateClient,
          ih1, ih2, ih3]
    | err e =>
      refine ⟨?_, ?_, ?_⟩ <;>
        simp [loopItems, h, handlerCatchEvents, List.filter_append,
          isConnect, isLogout, isCreateClient] <;>
        cases e <;>
        simp [isConnect, isLogout, isCreateClient]

theorem loopItems_all_ok (run : Nat → HandlerResult)
    (captured : Nat → List String) (resource operation : String)
    (idxs : List Nat) (hok : ∀ i ∈ idxs, isOkResult (run i) = true) :
    (loopItems run captured resource operation idxs).snd
        = Except.ok (collectOk run idxs)
    ∧ handlerCalls (loopItems run captured resource operation idxs).fst = idxs := by
  induction idxs with
  | nil => simp [loopItems, collectOk, handlerCalls]
  | cons i rest ih =>
    have hi : isOkResult (run i) = true := hok i (List.mem_cons_self i rest)
    have hrest : ∀ j ∈ rest, isOkResult (run j) = true :=
      fun j hj => hok j (List.mem_cons_of_mem i hj)
    rcases ih hrest with ⟨ih1, ih2⟩
    cases h : run i with
    | ok result =>
      cases result with
      | some its =>
        constructor
        · simp [loopItems, h, ih1, collectOk, okItems]
        · simpa [loopItems, h, handlerCalls] using ih2
      | none =>
        constructor
        · simp [loopItems, h, ih1, collectOk, okItems]
        · simpa [loopItems, h, handlerCalls] using ih2
    | err e => simp [h, isOkResult] at hi

theorem loopItems_first_err (run : Nat → HandlerResult)
    (captured : Nat → List String) (resource operation : String)
    (pre : List Nat) (i : Nat) (post : List Nat) (e : JsError)
    (hok : ∀ k ∈ pre, isOkResult (run k) = true)
    (herr : run i = HandlerResult.err e) :
    (loopItems run captured resource operation (pre ++ i :: post)).snd
        = Except.error (wrapHandlerError e (captured i))
    ∧ handlerCalls
        (loopItems run captured resource operation (pre ++ i :: post)).fst
        = pre ++ [i] := by
  induction pre with
  | nil =>
    constructor
    · simp [loopItems, herr]
    · simp [loopItems, herr, handlerCalls, handlerCatchEvents,
        List.filterMap_append]
      cases e <;> simp
  | cons k rest ih =>
    have hk : isOkResult (run k) = true := hok k (List.mem_cons_self k rest)
    have hrest : ∀ j ∈ rest, isOkResult (run j) = true :=
      fun j hj => hok j (List.mem_cons_of_mem k hj)
    rcases ih hrest with ⟨ih1, ih2⟩
    cases h : run k with
    | ok result =>
      cases result with
      | some its =>
        constructor
        · simp [loopItems, h, ih1]
        · simpa [loopItems, h, handlerCalls] using ih2
      | none =>
        constructor
        · simp [loopItems, h, ih1]
        · simpa [loopItems, h, handlerCalls] using ih2
    | err e2 => simp [h, isOkResult] at hk

/-! ## Concrete fixtures for witnesses and counterexamples -/

/-- A sample typed credentials record, as a credential store would return. -/
def sampleCredentials : ImapCredentialsData :=
  { host := Json.str "imap.example.com"
    port := Json.num 993
    user := Json.str "alice"
    password := Json.str "secret"
    tls := true
    allowUnauthorizedCerts := false }

/-- Builds an environment whose parameters are constant across item indices. -/
def mkEnv (auth field resource operation : String) (items : List Json)
    (connectResult : Option JsError) (defs : List ResourceDef)
    (captured : Nat → List String) : Env :=
  { getNodeParameter := fun name _ =>
      if name = "authentication" then auth
      else if name = "credentialsField" then field
      else if name = "resource" then resource
      else if name = "operation" then operation
      else ""
    items := items
    hostStoreCredentials := sampleCredentials
    nodeStoreCredentials := sampleCredentials
    connectResult := connectResult
    resourceDefs := defs
    captured := captured }


/-- A handler behaviour that succeeds on every item, returning one item
tagged with the index. -/
def sampleRun (i : Nat) : HandlerResult :=
  HandlerResult.ok (some [Json.num (Int.ofNat i)])

/-- A registered resource list with a single resource/operation pair. -/
def sampleDefs : List ResourceDef :=
  [{ resourceValue := "email",
     operationDefs := [{ operationValue := "download", run := sampleRun }] }]

/-- A `fromInput` execution with an empty input item list. -/
def envNoItems : Env :=
  mkEnv CREDENTIALS_TYPE_FROM_INPUT "credentials" "email" "download" []
    none sampleDefs (fun _ => [])

/-- An execution with store credentials whose `client.connect()` rejects. -/
def envConnectFails : Env :=
  mkEnv CREDENTIALS_TYPE_THIS_NODE "credentials" "email" "download"
    [Json.obj []]
    (some (JsError.generic none (some "connect ECONNREFUSED"))) sampleDefs
    (fun _ => [])

/-! ## C1: connection lifecycle -/

/-- C1 counterexample. The claim says every execution calls
`client.connect()` exactly once and calls `client.logout()` on every failure
path. Both parts fail: a `fromInput` execution with an empty item list throws
before the client is even created (zero `connect` calls), and an execution
whose `connect()` itself rejects propagates the wrapped error without any
`logout` call (the connection-closing try/catch only starts after a
successful connect). -/
theorem execute_lifecycle_counterexample :
    connectCount (execute envNoItems).fst = 0
    ∧ (execute envNoItems).snd
        = Except.error (JsError.nodeApi "No input items provided" none)
    ∧ connectCount (execute envConnectFails).fst = 1
    ∧ logoutCount (execute envConnectFails).fst = 0
    ∧ (execute envConnectFails).snd
        = Except.error (JsError.nodeApi "connect ECONNREFUSED" none) := by
  refine ⟨rfl, rfl, rfl, rfl, rfl⟩

/-- C1 as amended: per execution, `client.connect()` is called at most once —
exactly once as soon as credential resolution succeeds, and zero times when
it throws first — and `client.logout()` is called exactly once on the success
path and on every failure path after a successful connect, and zero times
when the execution fails before or at `connect()`. -/
theorem execute_connection_lifecycle (env : Env) :
    connectCount (execute env).fst = (if credentialsResolved env then 1 else 0)
    ∧ logoutCount (execute env).fst
        = (if credentialsResolved env && env.connectResult.isNone then 1
           else 0) := by
  unfold credentialsResolved
  unfold execute
  cases hr : resolveCredentials env with
  | error e => simp [connectCount, logoutCount]
  | ok creds =>
    cases hc : env.connectResult with
    | some e =>
      simp [connectCount, logoutCount, List.filter, isConnect, isLogout]
    | none =>
      cases hf : findHandler env.resourceDefs (resourceOf env) (operationOf env) with
      | none =>
        simp [hf, connectCount, logoutCount, List.filter, isConnect, isLogout]
      | some handler =>
        have hnl := loopItems_no_lifecycle handler.run env.captured
          (resourceOf env) (operationOf env) (List.range env.items.length)
        cases hl : (loopItems handler.run env.captured (resourceOf env)
            (operationOf env) (List.range env.items.length)).snd with
        | ok its =>
          simp [hf, hl, connectCount, logoutCount, List.filter_append,
            List.filter, isConnect, isLogout, hnl.1, hnl.2.1]
        | error e =>
          simp [hf, hl, connectCount, logoutCount, List.filter_append,
            List.filter, isConnect, isLogout, hnl.1, hnl.2.1]

/-- Helper: a `createImapClient` call recorded in the trace carries exactly
the credentials record produced by credential resolution. -/
theorem mem_createClient_execute (env : Env) (c : ImapCredentialsData)
    (h : Event.createClient c ∈ (execute env).fst) :
    resolveCredentials env = Except.ok c := by
  unfold execute at h
  cases hr : resolveCredentials env with
  | error e => simp [hr] at h
  | ok creds =>
    cases hc : env.connectResult with
    | some e =>
      simp [hr, hc] at h
      subst h
      rfl
    | none =>
      cases hf : findHandler env.resourceDefs (resourceOf env) (operationOf env) with
      | none =>
        simp [hr, hc, hf] at h
        subst h
        rfl
      | some handler =>
        have hnl := (loopItems_no_lifecycle handler.run env.captured
          (resourceOf env) (operationOf env) (List.range env.items.length)).2.2
        have hno : Event.createClient c ∉ (loopItems handler.run env.captured
            (resourceOf env) (operationOf env) (List.range env.items.length)).fst := by
          intro hmem
          have hfalse := (List.filter_eq_nil_iff.mp hnl) _ hmem
          simp [isCreateClient] at hfalse
        cases hl : (loopItems handler.run env.captured (resourceOf env)
            (operationOf env) (List.range env.items.length)).snd with
        | ok its =>
          simp [hr, hc, hf, hl] at h
          rcases h with h | h
          · subst h
            rfl
          · exact absurd h hno
        | error e =>
          simp [hr, hc, hf, hl] at h
          rcases h with h | h
          · subst h
            rfl
          · exact absurd h hno

/-- Helper: in `fromInput` mode a successful credential resolution means the
record was extracted from the named field of the first input item. -/
theorem resolveCredentials_ok_fromInput (env : Env) (c : ImapCredentialsData)
    (hauth : authOf env = CREDENTIALS_TYPE_FROM_INPUT)
    (hr : resolveCredentials env = Except.ok c) :
    ∃ firstItem rest, env.items = firstItem :: rest
      ∧ c = extractInputCredentials
          (getField firstItem (credentialsFieldOf env)) := by
  unfold resolveCredentials at hr
  rw [if_pos hauth] at hr
  cases hitems : env.items with
  | nil =>
    rw [hitems] at hr
    simp at hr
  | cons firstItem rest =>
    rw [hitems] at hr
    refine ⟨firstItem, rest, rfl, ?_⟩
    simp only [] at hr
    split at hr
    · exact absurd hr (by simp)
    · split at hr
      · exact absurd hr (by simp)
      · exact ((Except.ok.injEq _ _).mp hr).symm

/-! ## C3: credential sources -/

/-- C3: the credentials record used to create the client comes from exactly
one source selected by the `authentication` parameter of the first item:
in `fromInput` mode it is extracted from the named field of the first input
item, and in every other mode it is the record `getImapCredentials` fetched
from the host credential store or the node-local credential store; the two
cases are mutually exclusive, so no execution mixes sources. -/
theorem execute_credential_source (env : Env) (c : ImapCredentialsData)
    (h : Event.createClient c ∈ (execute env).fst) :
    (authOf env = CREDENTIALS_TYPE_FROM_INPUT
      ∧ ∃ firstItem rest, env.items = firstItem :: rest
        ∧ c = extractInputCredentials
            (getField firstItem (credentialsFieldOf env)))
    ∨ (authOf env ≠ CREDENTIALS_TYPE_FROM_INPUT
      ∧ c = getImapCredentials env
      ∧ (c = env.hostStoreCredentials ∨ c = env.nodeStoreCredentials)) := by
  have hr := mem_createClient_execute env c h
  by_cases hauth : authOf env = CREDENTIALS_TYPE_FROM_INPUT
  · left
    exact ⟨hauth, resolveCredentials_ok_fromInput env c hauth hr⟩
  · right
    unfold resolveCredentials at hr
    rw [if_neg hauth] at hr
    have hc : c = getImapCredentials env := ((Except.ok.injEq _ _).mp hr).symm
    refine ⟨hauth, hc, ?_⟩
    unfold getImapCredentials at hc
    by_cases hcore : authOf env = CREDENTIALS_TYPE_CORE_IMAP_ACCOUNT
    · left
      rw [hc, if_pos hcore]
    · right
      rw [hc, if_neg hcore]

/-- A credentials object as an upstream node would supply it (no `port`,
`tls` or `allowUnauthorizedCerts` keys). -/
def inputCredsObj : Json :=
  Json.obj [("host", Json.str "imap.example.com"), ("user", Json.str "alice"),
    ("password", Json.str "secret")]

/-- A `fromInput` execution whose first item carries `inputCredsObj` in its
`credentials` field. -/
def envFromInput : Env :=
  mkEnv CREDENTIALS_TYPE_FROM_INPUT "credentials" "email" "download"
    [Json.obj [("credentials", inputCredsObj)]] none sampleDefs (fun _ => [])

/-- The record extracted from `inputCredsObj`. -/
def extractedCreds : ImapCredentialsData := extractInputCredentials inputCredsObj

/-- C3 witness: on a concrete `fromInput` execution, the record used to
create the client is the one extracted from the first item's field. -/
theorem execute_credential_source_witness :
    (authOf envFromInput = CREDENTIALS_TYPE_FROM_INPUT
      ∧ ∃ firstItem rest, envFromInput.items = firstItem :: rest
        ∧ extractedCreds = extractInputCredentials
            (getField firstItem (credentialsFieldOf envFromInput)))
    ∨ (authOf envFromInput ≠ CREDENTIALS_TYPE_FROM_INPUT
      ∧ extractedCreds = getImapCredentials envFromInput
      ∧ (extractedCreds = envFromInput.hostStoreCredentials
         ∨ extractedCreds = envFromInput.nodeStoreCredentials)) :=
  execute_credential_source envFromInput extractedCreds (List.Mem.head _)

/-! ## C6: shape of the credentials record -/

/-- C6: the credentials record consists of exactly the fields `host`,
`port`, `user`, `password`, `tls` and `allowUnauthorizedCerts` (two records
agreeing on these six fields are equal), and the record built from an
upstream input item populates exactly these six fields from the named field
of the first item: `host`/`user`/`password` verbatim, `port` through
`|| 993`, `tls` through `!== false` and `allowUnauthorizedCerts` through
`=== true`. -/
theorem credentials_record_fields (env : Env) (c : ImapCredentialsData)
    (hauth : authOf env = CREDENTIALS_TYPE_FROM_INPUT)
    (h : Event.createClient c ∈ (execute env).fst) :
    (∀ c1 c2 : ImapCredentialsData, c1.host = c2.host → c1.port = c2.port →
      c1.user = c2.user → c1.password = c2.password → c1.tls = c2.tls →
      c1.allowUnauthorizedCerts = c2.allowUnauthorizedCerts → c1 = c2)
    ∧ ∃ firstItem rest, env.items = firstItem :: rest
        ∧ c.host = getField (getField firstItem (credentialsFieldOf env)) "host"
        ∧ c.port = jsOr (getField (getField firstItem (credentialsFieldOf env))
            "port") (Json.num 993)
        ∧ c.user = getField (getField firstItem (credentialsFieldOf env)) "user"
        ∧ c.password
            = getField (getField firstItem (credentialsFieldOf env)) "password"
        ∧ c.tls = strictNeqFalse (getField (getField firstItem
            (credentialsFieldOf env)) "tls")
        ∧ c.allowUnauthorizedCerts = strictEqTrue (getField (getField firstItem
            (credentialsFieldOf env)) "allowUnauthorizedCerts") := by
  constructor
  · intro c1 c2 h1 h2 h3 h4 h5 h6
    cases c1
    cases c2
    simp_all
  · have hr := mem_createClient_execute env c h
    rcases resolveCredentials_ok_fromInput env c hauth hr with
      ⟨firstItem, rest, hitems, hc⟩
    refine ⟨firstItem, rest, hitems, ?_⟩
    subst hc
    exact ⟨rfl, rfl, rfl, rfl, rfl, rfl⟩

/-- C6 witness: the concrete `fromInput` execution `envFromInput` populates
exactly the six fields of the record. -/
theorem credentials_record_fields_witness :
    (∀ c1 c2 : ImapCredentialsData, c1.host = c2.host → c1.port = c2.port →
      c1.user = c2.user → c1.password = c2.password → c1.tls = c2.tls →
      c1.allowUnauthorizedCerts = c2.allowUnauthorizedCerts → c1 = c2)
    ∧ ∃ firstItem rest, envFromInput.items = firstItem :: rest
        ∧ extractedCreds.host
            = getField (getField firstItem (credentialsFieldOf envFromInput)) "host"
        ∧ extractedCreds.port
            = jsOr (getField (getField firstItem (credentialsFieldOf envFromInput))
                "port") (Json.num 993)
        ∧ extractedCreds.user
            = getField (getField firstItem (credentialsFieldOf envFromInput)) "user"
        ∧ extractedCreds.password
            = getField (getField firstItem (credentialsFieldOf envFromInput)) "password"
        ∧ extractedCreds.tls = strictNeqFalse (getField (getField firstItem
            (credentialsFieldOf envFromInput)) "tls")
        ∧ extractedCreds.allowUnauthorizedCerts
            = strictEqTrue (getField (getField firstItem
                (credentialsFieldOf envFromInput)) "allowUnauthorizedCerts") :=
  credentials_record_fields envFromInput extractedCreds rfl (List.Mem.head _)

/-! ## C4: per-item dispatch order -/

/-- C4: once the execution reaches dispatch with a registered handler and
every handler call returns, the handler is invoked exactly once per input
item, sequentially in increasing item-index order, over the single created
client, and the items each call returns are appended to the single result
list in that same order. -/
theorem execute_per_item_dispatch (env : Env) (handler : OperationDef)
    (hcred : credentialsResolved env = true)
    (hconn : env.connectResult = none)
    (hf : findHandler env.resourceDefs (resourceOf env) (operationOf env)
        = some handler)
    (hok : ∀ i, i < env.items.length → isOkResult (handler.run i) = true) :
    handlerCalls (execute env).fst = List.range env.items.length
    ∧ (execute env).snd
        = Except.ok [collectOk handler.run (List.range env.items.length)]
    ∧ ((execute env).fst.filter isCreateClient).length = 1 := by
  unfold credentialsResolved at hcred
  cases hr : resolveCredentials env with
  | error e =>
    rw [hr] at hcred
    exact absurd hcred (by simp)
  | ok creds =>
    have hmem : ∀ i ∈ List.range env.items.length,
        isOkResult (handler.run i) = true :=
      fun i hi => hok i (List.mem_range.mp hi)
    have hloop := loopItems_all_ok handler.run env.captured (resourceOf env)
      (operationOf env) (List.range env.items.length) hmem
    have hcalls := hloop.2
    unfold handlerCalls at hcalls
    have hnl := (loopItems_no_lifecycle handler.run env.captured (resourceOf env)
      (operationOf env) (List.range env.items.length)).2.2
    refine ⟨?_, ?_, ?_⟩
    · unfold execute
      simp only [hr, hconn, hf, hloop.1]
      simp [handlerCalls, List.filterMap_append, hcalls]
    · unfold execute
      simp only [hr, hconn, hf, hloop.1]
    · unfold execute
      simp only [hr, hconn, hf, hloop.1]
      simp [List.filter_append, List.filter, isCreateClient, hnl]

/-- A two-item execution with store credentials and an always-succeeding
handler. -/
def envTwoItems : Env :=
  mkEnv CREDENTIALS_TYPE_THIS_NODE "credentials" "email" "download"
    [Json.obj [], Json.obj []] none sampleDefs (fun _ => [])

/-- C4 witness: on a concrete two-item execution, the handler runs at
indices 0 and 1 in order and both results land in the single branch. -/
theorem execute_per_item_dispatch_witness :
    handlerCalls (execute envTwoItems).fst = List.range 2
    ∧ (execute envTwoItems).snd
        = Except.ok [collectOk sampleRun (List.range 2)]
    ∧ ((execute envTwoItems).fst.filter isCreateClient).length = 1 :=
  execute_per_item_dispatch envTwoItems ⟨"download", sampleRun⟩ rfl rfl rfl
    (fun _ _ => rfl)

/-! ## C5: fail-fast on handler error -/

/-- Helper: if item `i` exists, the index list splits as
`range i ++ i :: tail`. -/
theorem range_split_at (n i : Nat) (h : i < n) :
    List.range n
      = List.range i ++ i :: (List.range (n - (i + 1))).map (fun j => i + 1 + j) := by
  have h1 : n = (i + 1) + (n - (i + 1)) := by omega
  calc List.range n = List.range ((i + 1) + (n - (i + 1))) := by rw [← h1]
    _ = List.range (i + 1)
        ++ (List.range (n - (i + 1))).map (fun j => i + 1 + j) :=
          List.range_add _ _
    _ = (List.range i ++ [i])
        ++ (List.range (n - (i + 1))).map (fun j => i + 1 + j) := by
          rw [List.range_succ]
    _ = List.range i
        ++ i :: (List.range (n - (i + 1))).map (fun j => i + 1 + j) := by
          simp

/-- Helper: when the handler throws at item index `i` (all earlier calls
having returned), the dispatched indices are exactly `0..i` and the
execution fails with the wrapped error. -/
theorem execute_handler_err_core (env : Env) (handler : OperationDef) (i : Nat)
    (e : JsError)
    (hcred : credentialsResolved env = true)
    (hconn : env.connectResult = none)
    (hf : findHandler env.resourceDefs (resourceOf env) (operationOf env)
        = some handler)
    (hlt : i < env.items.length)
    (hok : ∀ k, k < i → isOkResult (handler.run k) = true)
    (herr : handler.run i = HandlerResult.err e) :
    handlerCalls (execute env).fst = List.range (i + 1)
    ∧ (execute env).snd = Except.error (wrapHandlerError e (env.captured i)) := by
  unfold credentialsResolved at hcred
  cases hr : resolveCredentials env with
  | error e2 =>
    rw [hr] at hcred
    exact absurd hcred (by simp)
  | ok creds =>
    have hokpre : ∀ k ∈ List.range i, isOkResult (handler.run k) = true :=
      fun k hk => hok k (List.mem_range.mp hk)
    have hloop := loopItems_first_err handler.run env.captured (resourceOf env)
      (operationOf env) (List.range i) i
      ((List.range (env.items.length - (i + 1))).map (fun j => i + 1 + j)) e
      hokpre herr
    rw [← range_split_at env.items.length i hlt] at hloop
    have hcalls := hloop.2
    unfold handlerCalls at hcalls
    constructor
    · unfold execute
      simp only [hr, hconn, hf, hloop.1]
      simp [handlerCalls, List.filterMap_append, hcalls, List.range_succ]
    · unfold execute
      simp only [hr, hconn, hf, hloop.1]

/-- C5: if the handler throws at item index `i` (all earlier calls having
returned), no handler call is made for any index greater than `i`, the
failing item is not retried — the dispatched calls are exactly indices
`0..i`, each once — and the whole execution fails with the wrapped error. -/
theorem execute_fail_fast (env : Env) (handler : OperationDef) (i : Nat)
    (e : JsError)
    (hcred : credentialsResolved env = true)
    (hconn : env.connectResult = none)
    (hf : findHandler env.resourceDefs (resourceOf env) (operationOf env)
        = some handler)
    (hlt : i < env.items.length)
    (hok : ∀ k, k < i → isOkResult (handler.run k) = true)
    (herr : handler.run i = HandlerResult.err e) :
    handlerCalls (execute env).fst = List.range (i + 1)
    ∧ (execute env).snd = Except.error (wrapHandlerError e (env.captured i)) :=
  execute_handler_err_core env handler i e hcred hconn hf hlt hok herr

/-- A handler behaviour that succeeds at index 0 and throws from index 1 on. -/
def failRun : Nat → HandlerResult := fun i =>
  if i = 0 then HandlerResult.ok (some [Json.str "first item data"])
  else HandlerResult.err (JsError.generic none (some "FETCH failed"))

/-- A registered resource list whose only handler is `failRun`. -/
def failDefs : List ResourceDef :=
  [{ resourceValue := "email",
     operationDefs := [{ operationValue := "download", run := failRun }] }]

/-- A three-item execution whose handler throws at item index 1. -/
def envFailAt1 : Env :=
  mkEnv CREDENTIALS_TYPE_THIS_NODE "credentials" "email" "download"
    [Json.obj [], Json.obj [], Json.obj []] none failDefs (fun _ => [])

/-- C5 witness: with three items and a throw at index 1, only indices 0 and
1 are dispatched and the execution fails with the wrapped error. -/
theorem execute_fail_fast_witness :
    handlerCalls (execute envFailAt1).fst = List.range 2
    ∧ (execute envFailAt1).snd
        = Except.error (wrapHandlerError (JsError.generic none (some "FETCH failed"))
            (envFailAt1.captured 1)) :=
  execute_fail_fast envFailAt1 ⟨"download", failRun⟩ 1
    (JsError.generic none (some "FETCH failed")) rfl rfl rfl (by decide)
    (fun k hk => by
      have hk0 : k = 0 := Nat.lt_one_iff.mp hk
      subst hk0
      rfl)
    rfl

/-! ## C2: wrapping of handler errors -/

/-- C2: every error a handler throws during per-item processing is re-raised
as a `NodeApiError` carrying a message; a `NodeApiError` thrown by the
handler is re-raised unchanged (no merging of captured lines); and when the
original error is not a `NodeApiError` and the logger shim captured lines
whose joined form is nonempty, a description composed from those lines is
attached to the re-raised error. -/
theorem execute_handler_error_wrapped (env : Env) (handler : OperationDef)
    (i : Nat) (e : JsError)
    (hcred : credentialsResolved env = true)
    (hconn : env.connectResult = none)
    (hf : findHandler env.resourceDefs (resourceOf env) (operationOf env)
        = some handler)
    (hlt : i < env.items.length)
    (hok : ∀ k, k < i → isOkResult (handler.run k) = true)
    (herr : handler.run i = HandlerResult.err e) :
    (∃ m d, (execute env).snd = Except.error (JsError.nodeApi m d))
    ∧ (∀ m d, e = JsError.nodeApi m d → (execute env).snd = Except.error e)
    ∧ (∀ rt ms, e = JsError.generic rt ms →
        String.intercalate ", \n" (env.captured i) ≠ "" →
        ∃ m, (execute env).snd = Except.error (JsError.nodeApi m
          (some ("The following errors were reported by the IMAP server: \n"
            ++ String.intercalate ", \n" (env.captured i))))) := by
  have hsnd := (execute_handler_err_core env handler i e hcred hconn hf hlt
    hok herr).2
  refine ⟨?_, ?_, ?_⟩
  · rw [hsnd]
    unfold wrapHandlerError
    cases e with
    | nodeApi m d => exact ⟨m, d, rfl⟩
    | generic rt ms => exact ⟨_, _, rfl⟩
  · intro m d he
    subst he
    rw [hsnd]
    rfl
  · intro rt ms he hne
    subst he
    rw [hsnd]
    unfold wrapHandlerError
    simp only [if_neg hne]
    exact ⟨_, rfl⟩

/-- A handler behaviour that throws a bare error with no `responseText` and
no `message`. -/
def genericErrRun : Nat → HandlerResult :=
  fun _ => HandlerResult.err (JsError.generic none none)

/-- A registered resource list whose only handler is `genericErrRun`. -/
def genericErrDefs : List ResourceDef :=
  [{ resourceValue := "email",
     operationDefs := [{ operationValue := "download", run := genericErrRun }] }]

/-- An execution whose handler throws while the logger shim captured two
server error lines. -/
def envCaptured : Env :=
  mkEnv CREDENTIALS_TYPE_THIS_NODE "credentials" "email" "download"
    [Json.obj []] none genericErrDefs
    (fun _ => ["NO Mailbox does not exist", "BAD Command failed"])

/-- C2 witness: on a concrete execution with captured server lines and a
bare thrown error, the re-raised `NodeApiError` carries the joined lines as
message and as description. -/
theorem execute_handler_error_wrapped_witness :
    (∃ m d, (execute envCaptured).snd = Except.error (JsError.nodeApi m d))
    ∧ (execute envCaptured).snd = Except.error (JsError.nodeApi
        "NO Mailbox does not exist, \nBAD Command failed"
        (some ("The following errors were reported by the IMAP server: \nNO Mailbox does not exist, \nBAD Command failed"))) :=
  ⟨(execute_handler_error_wrapped envCaptured ⟨"download", genericErrRun⟩ 0
      (JsError.generic none none) rfl rfl rfl (by decide)
      (fun k hk => absurd hk (Nat.not_lt_zero k)) rfl).1, rfl⟩

/-! ## C9: single output branch on success -/

/-- Helper: a successful loop returned the ordered concatenation of the
truthy handler results, and every falsy handler result logged the
no-data warning. -/
theorem loopItems_ok_inv (run : Nat → HandlerResult)
    (captured : Nat → List String) (resource operation : String)
    (idxs : List Nat) (its : List Json)
    (h : (loopItems run captured resource operation idxs).snd = Except.ok its) :
    its = collectOk run idxs
    ∧ ∀ i ∈ idxs, run i = HandlerResult.ok none →
        Event.logWarn (noDataMessage resource operation)
          ∈ (loopItems run captured resource operation idxs).fst := by
  induction idxs generalizing its with
  | nil =>
    simp [loopItems] at h
    subst h
    refine ⟨rfl, ?_⟩
    intro i hi
    exact absurd hi (List.not_mem_nil i)
  | cons i rest ih =>
    cases hri : run i with
    | ok result =>
      cases result with
      | some lst =>
        cases hrest : (loopItems run captured resource operation rest).snd with
        | ok tail =>
          have hits : its = lst ++ tail := by
            have h2 := h
            simp [loopItems, hri, hrest] at h2
            exact h2.symm
          rcases ih tail hrest with ⟨ih1, ih2⟩
          refine ⟨?_, ?_⟩
          · rw [hits, ih1]
            simp [collectOk, okItems, hri]
          · intro j hj hjr
            rcases List.mem_cons.mp hj with hj | hj
            · subst hj
              rw [hri] at hjr
              exact absurd hjr (by simp)
            · have hmem := ih2 j hj hjr
              simp [loopItems, hri, List.mem_cons]
              exact hmem
        | error e =>
          simp [loopItems, hri, hrest] at h
      | none =>
        cases hrest : (loopItems run captured resource operation rest).snd with
        | ok tail =>
          have hits : its = tail := by
            have h2 := h
            simp [loopItems, hri, hrest] at h2
            exact h2.symm
          rcases ih tail hrest with ⟨ih1, ih2⟩
          refine ⟨?_, ?_⟩
          · rw [hits, ih1]
            simp [collectOk, okItems, hri]
          · intro j hj hjr
            simp [loopItems, hri, List.mem_cons]
        | error e =>
          simp [loopItems, hri, hrest] at h
    | err e =>
      simp [loopItems, hri] at h

/-- C9: every successful execution returns exactly one output branch; that
branch is the in-order concatenation of the items of the per-item handler
calls, a falsy handler result contributing nothing while the no-data warning
is logged. -/
theorem execute_success_single_branch (env : Env) (bs : List (List Json))
    (h : (execute env).snd = Except.ok bs) :
    bs.length = 1
    ∧ ∃ handler,
        findHandler env.resourceDefs (resourceOf env) (operationOf env)
          = some handler
        ∧ bs = [collectOk handler.run (List.range env.items.length)]
        ∧ ∀ i < env.items.length, handler.run i = HandlerResult.ok none →
            Event.logWarn (noDataMessage (resourceOf env) (operationOf env))
              ∈ (execute env).fst := by
  unfold execute at h ⊢
  cases hr : resolveCredentials env with
  | error e =>
    rw [hr] at h
    exact absurd h (by simp)
  | ok creds =>
    cases hc : env.connectResult with
    | some e =>
      simp [hr, hc] at h
    | none =>
      cases hf : findHandler env.resourceDefs (resourceOf env)
          (operationOf env) with
      | none =>
        simp [hr, hc, hf] at h
      | some handler =>
        cases hl : (loopItems handler.run env.captured (resourceOf env)
            (operationOf env) (List.range env.items.length)).snd with
        | error e =>
          simp [hr, hc, hf, hl] at h
        | ok its =>
          have hbs : bs = [its] := by
            simp [hr, hc, hf, hl] at h
            exact h.symm
          rcases loopItems_ok_inv handler.run env.captured (resourceOf env)
            (operationOf env) (List.range env.items.length) its hl with ⟨h1, h2⟩
          subst hbs
          refine ⟨rfl, handler, rfl, by rw [h1], ?_⟩
          intro i hi hnone
          have hmem := h2 i (List.mem_range.mpr hi) hnone
          simp [hr, hc, hf, hl, List.mem_cons, List.mem_append]
          exact hmem

/-- A handler behaviour returning a falsy result at index 0 and one item at
index 1. -/
def warnRun : Nat → HandlerResult := fun i =>
  if i = 0 then HandlerResult.ok none
  else HandlerResult.ok (some [Json.str "message data"])

/-- A registered resource list whose only handler is `warnRun`. -/
def warnDefs : List ResourceDef :=
  [{ resourceValue := "email",
     operationDefs := [{ operationValue := "download", run := warnRun }] }]

/-- A two-item execution whose handler returns a falsy result at index 0. -/
def envWarn : Env :=
  mkEnv CREDENTIALS_TYPE_THIS_NODE "credentials" "email" "download"
    [Json.obj [], Json.obj []] none warnDefs (fun _ => [])

/-- C9 witness: the concrete two-item execution with one falsy handler
result succeeds with a single branch holding only the truthy result. -/
theorem execute_success_single_branch_witness :
    ([[Json.str "message data"]] : List (List Json)).length = 1
    ∧ ∃ handler,
        findHandler envWarn.resourceDefs (resourceOf envWarn)
            (operationOf envWarn) = some handler
        ∧ [[Json.str "message data"]]
            = [collectOk handler.run (List.range envWarn.items.length)]
        ∧ ∀ i < envWarn.items.length, handler.run i = HandlerResult.ok none →
            Event.logWarn (noDataMessage (resourceOf envWarn)
                (operationOf envWarn))
              ∈ (execute envWarn).fst :=
  execute_success_single_branch envWarn [[Json.str "message data"]] rfl

/-! ## C10: parameters read at index 0, unknown-operation error -/

/-- C10: all node parameters (in particular `resource` and `operation`) are
read only at item index 0, so the execution is invariant under changing
parameter values at any other index and one resource/operation pair governs
every input item; and when no registered handler matches the pair, the
execution throws a `NodeApiError` with exactly the message
`Unknown operation "<operation>" for resource "<resource>"`, no handler is
invoked for any item, and the connection is still closed. -/
theorem execute_resource_operation_dispatch :
    (∀ (env : Env) (f : String → Nat → String),
      (∀ name, f name 0 = env.getNodeParameter name 0) →
      execute { env with getNodeParameter := f } = execute env)
    ∧ (∀ env : Env, credentialsResolved env = true → env.connectResult = none →
        findHandler env.resourceDefs (resourceOf env) (operationOf env) = none →
        (execute env).snd = Except.error (JsError.nodeApi
          (unknownOperationMessage (resourceOf env) (operationOf env)) none)
        ∧ handlerCalls (execute env).fst = []
        ∧ logoutCount (execute env).fst = 1) := by
  constructor
  · intro env f hf
    have hauth : authOf { env with getNodeParameter := f } = authOf env :=
      hf "authentication"
    have hfield : credentialsFieldOf { env with getNodeParameter := f }
        = credentialsFieldOf env := hf "credentialsField"
    have hres : resourceOf { env with getNodeParameter := f } = resourceOf env :=
      hf "resource"
    have hop : operationOf { env with getNodeParameter := f }
        = operationOf env := hf "operation"
    unfold execute resolveCredentials getImapCredentials
    simp only [hauth, hfield, hres, hop]
  · intro env hcred hconn hfind
    unfold credentialsResolved at hcred
    cases hr : resolveCredentials env with
    | error e =>
      rw [hr] at hcred
      exact absurd hcred (by simp)
    | ok creds =>
      refine ⟨?_, ?_, ?_⟩
      · unfold execute
        simp only [hr, hconn, hfind]
      · unfold execute
        simp only [hr, hconn, hfind]
        simp [handlerCalls]
      · unfold execute
        simp only [hr, hconn, hfind]
        simp [logoutCount, List.filter, isLogout]

/-- An execution whose `operation` parameter matches no registered handler. -/
def envUnknownOp : Env :=
  mkEnv CREDENTIALS_TYPE_THIS_NODE "credentials" "email" "unknownOp"
    [Json.obj []] none sampleDefs (fun _ => [])

/-- C10 witness: changing parameters at item index 1 leaves a concrete
execution unchanged, and a concrete unknown-operation execution throws the
exact message with no handler calls and one logout. -/
theorem execute_resource_operation_dispatch_witness :
    execute { envTwoItems with getNodeParameter := fun name i =>
      if i = 0 then envTwoItems.getNodeParameter name 0 else "someOtherValue" }
      = execute envTwoItems
    ∧ ((execute envUnknownOp).snd = Except.error (JsError.nodeApi
          (unknownOperationMessage (resourceOf envUnknownOp)
            (operationOf envUnknownOp)) none)
        ∧ handlerCalls (execute envUnknownOp).fst = []
        ∧ logoutCount (execute envUnknownOp).fst = 1) :=
  ⟨execute_resource_operation_dispatch.1 envTwoItems _ (fun _ => rfl),
   execute_resource_operation_dispatch.2 envUnknownOp rfl rfl rfl⟩

/-! ## C7: credential test hook -/

/-- C7 counterexample. The claim says the hook returns 'OK' if and only if
creating the client, connecting, and logging out all succeed. But
`client.logout()` is invoked without `await`, so an execution whose logout
fails still returns `{status: 'OK', message: 'Success'}`. -/
theorem testImapCredentials_counterexample :
    testImapCredentials ⟨none, none, false⟩ = ⟨"OK", some "Success"⟩
    ∧ (⟨none, none, false⟩ : CredTestEnv).logoutSucceeds = false :=
  ⟨rfl, rfl⟩

/-- C7 as amended: the hook never throws — it always returns a record whose
status is 'OK' or 'Error' — and returns 'OK' with message 'Success' if and
only if creating the client and awaiting `connect()` succeed; otherwise it
returns 'Error' carrying the caught error's `message`. `client.logout()` is
initiated but not awaited, so its failure is not observed. -/
theorem testImapCredentials_result (env : CredTestEnv) :
    ((testImapCredentials env).status = "OK"
      ↔ env.createResult = none ∧ env.connectResult = none)
    ∧ ((testImapCredentials env).status = "OK"
        → (testImapCredentials env).message = some "Success")
    ∧ (∀ e, env.createResult = some e →
        testImapCredentials env = ⟨"Error", jsMessage e⟩)
    ∧ (env.createResult = none → ∀ e, env.connectResult = some e →
        testImapCredentials env = ⟨"Error", jsMessage e⟩)
    ∧ ((testImapCredentials env).status = "OK"
        ∨ (testImapCredentials env).status = "Error") := by
  cases env with
  | mk createR connectR logoutS =>
    cases createR with
    | some e => simp [testImapCredentials]
    | none =>
      cases connectR with
      | some e => simp [testImapCredentials]
      | none => simp [testImapCredentials]

/-- A credential test whose connect step rejects. -/
def credTestConnectFail : CredTestEnv :=
  ⟨none, some (JsError.generic none (some "Invalid credentials")), true⟩

/-- C7 witness: instantiating the amended characterization on a concrete
failing connect. -/
theorem testImapCredentials_result_witness :
    ((testImapCredentials credTestConnectFail).status = "OK"
      ↔ credTestConnectFail.createResult = none
        ∧ credTestConnectFail.connectResult = none)
    ∧ ((testImapCredentials credTestConnectFail).status = "OK"
        → (testImapCredentials credTestConnectFail).message = some "Success")
    ∧ (∀ e, credTestConnectFail.createResult = some e →
        testImapCredentials credTestConnectFail = ⟨"Error", jsMessage e⟩)
    ∧ (credTestConnectFail.createResult = none →
        ∀ e, credTestConnectFail.connectResult = some e →
        testImapCredentials credTestConnectFail = ⟨"Error", jsMessage e⟩)
    ∧ ((testImapCredentials credTestConnectFail).status = "OK"
        ∨ (testImapCredentials credTestConnectFail).status = "Error") :=
  testImapCredentials_result credTestConnectFail

/-! ## C8: fromInput validation and defaults -/

/-- Helper: the strict `!== false` flag is false exactly on the literal
`false`. -/
theorem strictNeqFalse_eq_false_iff (v : Json) :
    strictNeqFalse v = false ↔ v = Json.bool false := by
  cases v with
  | undefined => simp [strictNeqFalse]
  | null => simp [strictNeqFalse]
  | bool b => cases b <;> simp [strictNeqFalse]
  | num n => simp [strictNeqFalse]
  | str s => simp [strictNeqFalse]
  | arr xs => simp [strictNeqFalse]
  | obj fs => simp [strictNeqFalse]

/-- Helper: the strict `=== true` flag is true exactly on the literal
`true`. -/
theorem strictEqTrue_eq_true_iff (v : Json) :
    strictEqTrue v = true ↔ v = Json.bool true := by
  cases v with
  | undefined => simp [strictEqTrue]
  | null => simp [strictEqTrue]
  | bool b => cases b <;> simp [strictEqTrue]
  | num n => simp [strictEqTrue]
  | str s => simp [strictEqTrue]
  | arr xs => simp [strictEqTrue]
  | obj fs => simp [strictEqTrue]

/-- Helper: a credential-resolution error aborts the execution with an empty
trace (no client creation, no connect). -/
theorem execute_resolve_error (env : Env) (e : JsError)
    (h : resolveCredentials env = Except.error e) :
    execute env = ([], Except.error e) := by
  unfold execute
  rw [h]

/-- Helper: successful credential resolution always records the client
creation with the resolved record. -/
theorem createClient_of_resolved (env : Env) (c : ImapCredentialsData)
    (h : resolveCredentials env = Except.ok c) :
    Event.createClient c ∈ (execute env).fst := by
  unfold execute
  rw [h]
  cases hc : env.connectResult with
  | some e => simp
  | none =>
    cases hf : findHandler env.resourceDefs (resourceOf env)
        (operationOf env) with
    | none => simp [hf]
    | some handler =>
      cases hl : (loopItems handler.run env.captured (resourceOf env)
          (operationOf env) (List.range env.items.length)).snd with
      | ok its => simp [hf, hl]
      | error e2 => simp [hf, hl]

/-- A credentials object whose `host` is present but empty (falsy). -/
def hostEmptyObj : Json :=
  Json.obj [("host", Json.str ""), ("user", Json.str "alice"),
    ("password", Json.str "secret")]

/-- A `fromInput` execution carrying `hostEmptyObj`. -/
def envHostEmpty : Env :=
  mkEnv CREDENTIALS_TYPE_FROM_INPUT "credentials" "email" "download"
    [Json.obj [("credentials", hostEmptyObj)]] none sampleDefs (fun _ => [])

/-- A credentials object whose `port` is present but `0` (falsy). -/
def portZeroObj : Json :=
  Json.obj [("host", Json.str "imap.example.com"), ("user", Json.str "alice"),
    ("password", Json.str "secret"), ("port", Json.num 0)]

/-- A `fromInput` execution carrying `portZeroObj`. -/
def envPortZero : Env :=
  mkEnv CREDENTIALS_TYPE_FROM_INPUT "credentials" "email" "download"
    [Json.obj [("credentials", portZeroObj)]] none sampleDefs (fun _ => [])

/-- C8 counterexample. The claim throws only when host/user/password are
*missing* and defaults port only when *absent*; but the code also throws on
a present-yet-falsy host (empty string), and also replaces a present-yet-
falsy port (0) with 993. -/
theorem execute_from_input_counterexample :
    getField hostEmptyObj "host" = Json.str ""
    ∧ (execute envHostEmpty).snd = Except.error (JsError.nodeApi
        "Credentials must contain at least host, user, and password fields" none)
    ∧ (execute envHostEmpty).fst = []
    ∧ getField portZeroObj "port" = Json.num 0
    ∧ (extractInputCredentials portZeroObj).port = Json.num 993
    ∧ Event.createClient (extractInputCredentials portZeroObj)
        ∈ (execute envPortZero).fst :=
  ⟨rfl, rfl, rfl, rfl, rfl, List.Mem.head _⟩

/-- C8 as amended: in `fromInput` mode the execution throws a `NodeApiError`
before any connection is opened when the item list is empty, when the named
credentials field of the first item is missing or falsy, or when any of
host, user or password is missing or falsy in that field; otherwise the
extracted record defaults port to 993 when absent or falsy, tls to true
unless the value is exactly `false`, and allowUnauthorizedCerts to false
unless the value is exactly `true`. -/
theorem execute_from_input_validation (env : Env)
    (hauth : authOf env = CREDENTIALS_TYPE_FROM_INPUT) :
    (env.items = [] →
      execute env = ([], Except.error
        (JsError.nodeApi "No input items provided" none)))
    ∧ (∀ firstItem rest, env.items = firstItem :: rest →
        (truthy (getField firstItem (credentialsFieldOf env)) = false →
          execute env = ([], Except.error (JsError.nodeApi
            ("No credentials found in field \"" ++ credentialsFieldOf env
              ++ "\"") none)))
        ∧ (truthy (getField firstItem (credentialsFieldOf env)) = true →
            (truthy (getField (getField firstItem (credentialsFieldOf env))
                "host") = false
              ∨ truthy (getField (getField firstItem (credentialsFieldOf env))
                "user") = false
              ∨ truthy (getField (getField firstItem (credentialsFieldOf env))
                "password") = false) →
            execute env = ([], Except.error (JsError.nodeApi
              "Credentials must contain at least host, user, and password fields"
              none)))
        ∧ (truthy (getField firstItem (credentialsFieldOf env)) = true →
            truthy (getField (getField firstItem (credentialsFieldOf env))
              "host") = true →
            truthy (getField (getField firstItem (credentialsFieldOf env))
              "user") = true →
            truthy (getField (getField firstItem (credentialsFieldOf env))
              "password") = true →
            Event.createClient (extractInputCredentials
              (getField firstItem (credentialsFieldOf env)))
              ∈ (execute env).fst))
    ∧ (∀ ic : Json,
        (truthy (getField ic "port") = false →
          (extractInputCredentials ic).port = Json.num 993)
        ∧ (truthy (getField ic "port") = true →
          (extractInputCredentials ic).port = getField ic "port")
        ∧ ((extractInputCredentials ic).tls = false
            ↔ getField ic "tls" = Json.bool false)
        ∧ ((extractInputCredentials ic).allowUnauthorizedCerts = true
            ↔ getField ic "allowUnauthorizedCerts" = Json.bool true)) := by
  refine ⟨?_, ?_, ?_⟩
  · intro hnil
    apply execute_resolve_error
    unfold resolveCredentials
    rw [if_pos hauth, hnil]
  · intro firstItem rest hitems
    refine ⟨?_, ?_, ?_⟩
    · intro hfalsy
      apply execute_resolve_error
      unfold resolveCredentials
      rw [if_pos hauth, hitems]
      simp only []
      rw [if_pos (by simp [hfalsy])]
    · intro htruthy hmissing
      apply execute_resolve_error
      unfold resolveCredentials
      rw [if_pos hauth, hitems]
      simp only []
      rw [if_neg (by simp [htruthy])]
      rw [if_pos (by simpa using hmissing)]
    · intro htruthy hhost huser hpass
      apply createClient_of_resolved
      unfold resolveCredentials
      rw [if_pos hauth, hitems]
      simp only []
      rw [if_neg (by simp [htruthy])]
      rw [if_neg (by simp [hhost, huser, hpass])]
  · intro ic
    refine ⟨?_, ?_, ?_, ?_⟩
    · intro hp
      simp [extractInputCredentials, jsOr, hp]
    · intro hp
      simp [extractInputCredentials, jsOr, hp]
    · simpa [extractInputCredentials] using strictNeqFalse_eq_false_iff
        (getField ic "tls")
    · simpa [extractInputCredentials] using strictEqTrue_eq_true_iff
        (getField ic "allowUnauthorizedCerts")

/-- C8 witness: the amended validation instantiated on the concrete
`fromInput` execution `envFromInput`. -/
theorem execute_from_input_validation_witness :
    (envFromInput.items = [] →
      execute envFromInput = ([], Except.error
        (JsError.nodeApi "No input items provided" none)))
    ∧ (∀ firstItem rest, envFromInput.items = firstItem :: rest →
        (truthy (getField firstItem (credentialsFieldOf envFromInput)) = false →
          execute envFromInput = ([], Except.error (JsError.nodeApi
            ("No credentials found in field \""
              ++ credentialsFieldOf envFromInput ++ "\"") none)))
        ∧ (truthy (getField firstItem (credentialsFieldOf envFromInput)) = true →
            (truthy (getField (getField firstItem
                (credentialsFieldOf envFromInput)) "host") = false
              ∨ truthy (getField (getField firstItem
                (credentialsFieldOf envFromInput)) "user") = false
              ∨ truthy (getField (getField firstItem
                (credentialsFieldOf envFromInput)) "password") = false) →
            execute envFromInput = ([], Except.error (JsError.nodeApi
              "Credentials must contain at least host, user, and password fields"
              none)))
        ∧ (truthy (getField firstItem (credentialsFieldOf envFromInput)) = true →
            truthy (getField (getField firstItem
              (credentialsFieldOf envFromInput)) "host") = true →
            truthy (getField (getField firstItem
              (credentialsFieldOf envFromInput)) "user") = true →
            truthy (getField (getField firstItem
              (credentialsFieldOf envFromInput)) "password") = true →
            Event.createClient (extractInputCredentials
              (getField firstItem (credentialsFieldOf envFromInput)))
              ∈ (execute envFromInput).fst))
    ∧ (∀ ic : Json,
        (truthy (getField ic "port") = false →
          (extractInputCredentials ic).port = Json.num 993)
        ∧ (truthy (getField ic "port") = true →
          (extractInputCredentials ic).port = getField ic "port")
        ∧ ((extractInputCredentials ic).tls = false
            ↔ getField ic "tls" = Json.bool false)
        ∧ ((extractInputCredentials ic).allowUnauthorizedCerts = true
            ↔ getField ic "allowUnauthorizedCerts" = Json.bool true)) :=
  execute_from_input_validation envFromInput rfl
